import Mathlib

/-!
Verification of the net-exporter network collector.

The Go source (`network/network.go`) is embedded shallowly:

* latencies and bucket bounds are rationals (`ℚ`) instead of `float64`;
* the per-host histogram store (the external `histogramvec` package,
  whose source is not in this repository) is modelled from the spec's
  description of `AddSample` / `EnsurePresence` / `Snapshot`;
* the collection cycle `Collect` is a function from the cycle's external
  inputs (registry lookup results, dial outcomes) and the collector
  state to the new state plus the list of emitted metrics; the
  concurrent fan-out/join of dial goroutines is linearised into a fold,
  which is faithful for the per-host facts proved here because each
  goroutine touches only its own host's histogram and error counter.
-/

namespace NetExporter

/-! ## Bucket limits (constants from network.go) -/

def bucketStart : ℚ := 1 / 1000

def bucketFactor : ℚ := 2

def numBuckets : Nat := 15

/-- Modelled from the spec: the bucket bounds are "15 buckets, exponential
growth from 0.001 starting value, factor 2" (the Go code calls
`prometheus.ExponentialBuckets(bucketStart, bucketFactor, numBuckets)`,
whose source is outside this repository): bound `i` is `start * factor ^ i`. -/
def exponentialBuckets (start factor : ℚ) (count : Nat) : List ℚ :=
  (List.range count).map (fun i => start * factor ^ i)

def bucketLimits : List ℚ := exponentialBuckets bucketStart bucketFactor numBuckets

/-! ## Histograms -/

/-- A latency histogram: running count, running sum, and per-bucket
cumulative counts keyed by the bucket's upper bound. -/
structure Histogram where
  count : Nat
  sum : ℚ
  buckets : List (ℚ × Nat)
deriving Repr, DecidableEq

/-- Modelled from the spec: a fresh all-zero histogram over `bucketLimits`. -/
def emptyHistogram : Histogram :=
  { count := 0, sum := 0, buckets := bucketLimits.map (fun b => (b, 0)) }

/-- Modelled from the spec (§4.3 `AddSample`): adding one sample `v`
increments the count, adds `v` to the sum, and increments the cumulative
counter of every bucket whose upper bound is `≥ v` (inclusive). -/
def Histogram.add (hist : Histogram) (v : ℚ) : Histogram :=
  { count := hist.count + 1
    sum := hist.sum + v
    buckets := hist.buckets.map (fun p => if v ≤ p.1 then (p.1, p.2 + 1) else p) }

def Histogram.addAll (hist : Histogram) (vs : List ℚ) : Histogram :=
  vs.foldl Histogram.add hist

/-- The spec-side characterisation of a histogram holding exactly the
samples `vs`: count is the number of samples, sum is their sum, and the
bucket for bound `b` counts the samples `v ≤ b`. -/
def histOfSamples (vs : List ℚ) : Histogram :=
  { count := vs.length
    sum := vs.sum
    buckets := bucketLimits.map (fun b => (b, (vs.filter (fun v => decide (v ≤ b))).length)) }

/-! ## The per-host histogram store -/

/-- The store is a host-keyed association list of histograms (the Go
`histogramvec` keeps a `map[string]*histogram`). -/
def lookupHost : List (String × Histogram) → String → Option Histogram
  | [], _ => none
  | p :: rest, h => if p.1 = h then some p.2 else lookupHost rest h

def hasHost (st : List (String × Histogram)) (h : String) : Bool :=
  (lookupHost st h).isSome

/-- Modelled from the spec (§4.3 `AddSample`): lazily creates the host's
histogram if absent, then adds the sample to it. -/
def AddSample : List (String × Histogram) → String → ℚ → List (String × Histogram)
  | [], h, v => [(h, emptyHistogram.add v)]
  | p :: rest, h, v =>
    if p.1 = h then (p.1, p.2.add v) :: rest else p :: AddSample rest h v

/-- Modelled from the spec (§4.3 `EnsurePresence`, one host): create an
empty histogram entry if one does not already exist; does not touch
existing entries. -/
def ensureOne : List (String × Histogram) → String → List (String × Histogram)
  | [], h => [(h, emptyHistogram)]
  | p :: rest, h => if p.1 = h then p :: rest else p :: ensureOne rest h

/-- Modelled from the spec (§4.3 `EnsurePresence`): ensure every host of
the list has an entry. -/
def EnsurePresence (st : List (String × Histogram)) (hosts : List String) :
    List (String × Histogram) :=
  hosts.foldl ensureOne st

/-- A sequence of `AddSample` calls applied to the initially empty store. -/
def applyCalls (calls : List (String × ℚ)) : List (String × Histogram) :=
  calls.foldl (fun st c => AddSample st c.1 c.2) []

/-- The samples recorded for host `h` by a call sequence. -/
def samplesFor (h : String) (calls : List (String × ℚ)) : List ℚ :=
  (calls.filter (fun c => decide (c.1 = h))).map Prod.snd

/-! ## The collection cycle (network.go, `Collector.Collect`) -/

/-- The dialer configuration (per-attempt timeout and keep-alive policy,
in seconds); its values do not influence the embedded control flow. -/
structure Dialer where
  timeoutSeconds : ℚ
  keepAliveSeconds : ℚ
deriving Repr, DecidableEq

/-- Construction configuration (network.go `Config`); the Kubernetes
client and logger collaborators are modelled by their presence only. -/
structure Config where
  dialer : Option Dialer
  kubernetesClient : Option Unit
  logger : Option Unit
  namespaceName : String
  port : String
  service : String
deriving Repr, DecidableEq

/-- The collector's own configuration fields (network.go `Collector`);
the collaborator handles are omitted as they carry no embedded state. -/
structure Collector where
  namespaceName : String
  port : String
  service : String
deriving Repr, DecidableEq

/-- The result of the service lookup: the service's stable cluster
address (`service.Spec.ClusterIP`). -/
structure Service where
  clusterIP : String
deriving Repr, DecidableEq

/-- One endpoint subset: its list of backing addresses (`address.IP`). -/
structure EndpointSubset where
  addresses : List String
deriving Repr, DecidableEq

/-- The result of the endpoint-set lookup (`endpoints.Subsets`). -/
structure Endpoints where
  subsets : List EndpointSubset
deriving Repr, DecidableEq

/-- The external inputs of one collection cycle: the two registry lookup
results (`none` = lookup error) and, for each host, the dial outcome
(`some v` = connect succeeded with elapsed seconds `v`, `none` = dial
error). -/
structure CycleInput where
  serviceResult : Option Service
  endpointsResult : Option Endpoints
  dial : String → Option ℚ

/-- The collector state carried between cycles: the histogram store, the
global error counter, the per-host dial-error counter vector, and the
scrape identifier. -/
structure CollectorState where
  store : List (String × Histogram)
  errorCount : Nat
  dialErrorCount : String → Nat
  scrapeID : Nat

/-- `fmt.Sprintf("%v:%v", ip, port)`. -/
def makeHost (ip port : String) : String := ip ++ ":" ++ port

/-- The target-list construction of `Collect`: the cluster address first,
then every subset's addresses appended in order, each combined with the
configured port. -/
def collectHosts (clusterIP port : String) (subsets : List EndpointSubset) : List String :=
  subsets.foldl
    (fun hosts s => s.addresses.foldl (fun hs a => hs ++ [makeHost a port]) hosts)
    [makeHost clusterIP port]

/-- One dial goroutine's effect: on failure, increment the dial-error
counter labeled with the host and record nothing; on success, feed the
elapsed seconds into the histogram store for the host. -/
def probeHost (d : String → Option ℚ) (st : CollectorState) (host : String) : CollectorState :=
  match d host with
  | none =>
    { st with dialErrorCount :=
        fun x => if x = host then st.dialErrorCount x + 1 else st.dialErrorCount x }
  | some v => { st with store := AddSample st.store host v }

/-- The probing phase: all dial goroutines are spawned and joined before
the cycle proceeds; since each goroutine touches only its own host's
histogram and counter, the fan-out/join is linearised as a fold over the
target list. -/
def probeAll (d : String → Option ℚ) (st : CollectorState) (hosts : List String) :
    CollectorState :=
  hosts.foldl (probeHost d) st

/-- One collection cycle (network.go `Collector.Collect`): bump the
scrape identifier; on either registry lookup failure increment the
global error counter and emit nothing; otherwise build the target list,
probe every target, ensure the store has an entry for every target, and
emit one `(host, histogram)` metric per store entry. -/
def Collect (c : Collector) (inp : CycleInput) (st : CollectorState) :
    CollectorState × List (String × Histogram) :=
  let st0 := { st with scrapeID := st.scrapeID + 1 }
  match inp.serviceResult with
  | none => ({ st0 with errorCount := st0.errorCount + 1 }, [])
  | some service =>
    match inp.endpointsResult with
    | none => ({ st0 with errorCount := st0.errorCount + 1 }, [])
    | some endpoints =>
      let hosts := collectHosts service.clusterIP c.port endpoints.subsets
      let st1 := probeAll inp.dial st0 hosts
      let finalStore := EnsurePresence st1.store hosts
      ({ st1 with store := finalStore }, finalStore)

/-- Construction (network.go `New`): fail fast when a required input is
missing, in source order; the final guard models the only failure of the
external `histogramvec.New` (an empty bucket-limit list), which cannot
fire here. -/
def New (config : Config) : Except String Collector :=
  if config.dialer.isNone then Except.error "Dialer must not be empty"
  else if config.kubernetesClient.isNone then Except.error "KubernetesClient must not be empty"
  else if config.logger.isNone then Except.error "Logger must not be empty"
  else if config.namespaceName = "" then Except.error "Namespace must not be empty"
  else if config.port = "" then Except.error "Port must not be empty"
  else if config.service = "" then Except.error "Service must not be empty"
  else if bucketLimits = [] then Except.error "BucketLimits must not be empty"
  else Except.ok
    { namespaceName := config.namespaceName
      port := config.port
      service := config.service }

/-! ## Basic store lemmas -/

theorem lookupHost_AddSample_self (st : List (String × Histogram)) (h : String) (v : ℚ) :
    lookupHost (AddSample st h v) h = some (((lookupHost st h).getD emptyHistogram).add v) := by
  induction st with
  | nil => simp [AddSample, lookupHost]
  | cons p rest ih =>
    by_cases hp : p.1 = h
    · simp [AddSample, lookupHost, hp]
    · simp [AddSample, lookupHost, hp, ih]

theorem lookupHost_AddSample_ne (st : List (String × Histogram)) (h h' : String) (v : ℚ)
    (hne : h' ≠ h) : lookupHost (AddSample st h v) h' = lookupHost st h' := by
  have hne' : ¬ h = h' := fun e => hne e.symm
  induction st with
  | nil => simp [AddSample, lookupHost, hne']
  | cons p rest ih =>
    by_cases hp : p.1 = h
    · simp [AddSample, lookupHost, hp, hne', hne]
    · by_cases hp' : p.1 = h'
      · simp [AddSample, lookupHost, hp, hp', hne]
      · simp [AddSample, lookupHost, hp, hp', ih]

theorem lookupHost_ensureOne_self (st : List (String × Histogram)) (h : String) :
    lookupHost (ensureOne st h) h = some ((lookupHost st h).getD emptyHistogram) := by
  induction st with
  | nil => simp [ensureOne, lookupHost]
  | cons p rest ih =>
    by_cases hp : p.1 = h
    · simp [ensureOne, lookupHost, hp]
    · simp [ensureOne, lookupHost, hp, ih]

theorem lookupHost_ensureOne_ne (st : List (String × Histogram)) (h h' : String)
    (hne : h' ≠ h) : lookupHost (ensureOne st h) h' = lookupHost st h' := by
  have hne' : ¬ h = h' := fun e => hne e.symm
  induction st with
  | nil => simp [ensureOne, lookupHost, hne']
  | cons p rest ih =>
    by_cases hp : p.1 = h
    · simp [ensureOne, lookupHost, hp, hne', hne]
    · by_cases hp' : p.1 = h'
      · simp [ensureOne, lookupHost, hp, hp', hne]
      · simp [ensureOne, lookupHost, hp, hp', ih]

theorem lookupHost_EnsurePresence (hosts : List String) :
    ∀ (st : List (String × Histogram)) (h : String),
      lookupHost (EnsurePresence st hosts) h =
        if h ∈ hosts then some ((lookupHost st h).getD emptyHistogram)
        else lookupHost st h := by
  induction hosts with
  | nil => intro st h; simp [EnsurePresence]
  | cons x rest ih =>
    intro st h
    show lookupHost (EnsurePresence (ensureOne st x) rest) h = _
    rw [ih]
    by_cases hx : h = x
    · subst hx
      by_cases hr : h ∈ rest <;>
        simp [hr, lookupHost_ensureOne_self]
    · rw [lookupHost_ensureOne_ne st x h hx]
      simp [hx]

/-! ## Characterisation of accumulated histograms -/

theorem histOfSamples_add (vs : List ℚ) (v : ℚ) :
    (histOfSamples vs).add v = histOfSamples (vs ++ [v]) := by
  unfold histOfSamples Histogram.add
  simp only [Histogram.mk.injEq]
  refine ⟨by simp, by simp, ?_⟩
  rw [List.map_map]
  refine congrArg (fun f => List.map f bucketLimits) (funext fun b => ?_)
  by_cases hb : v ≤ b <;> simp [hb, List.filter_append]

theorem histOfSamples_addAll (vs : List ℚ) :
    ∀ us : List ℚ, (histOfSamples us).addAll vs = histOfSamples (us ++ vs) := by
  induction vs with
  | nil => intro us; simp [Histogram.addAll]
  | cons v rest ih =>
    intro us
    show ((histOfSamples us).add v).addAll rest = _
    rw [histOfSamples_add, ih, List.append_assoc]
    rfl

theorem emptyHistogram_eq : emptyHistogram = histOfSamples [] := by
  simp [emptyHistogram, histOfSamples]

theorem lookupHost_foldl_AddSample (calls : List (String × ℚ)) (h : String) :
    ∀ st : List (String × Histogram),
      (lookupHost (calls.foldl (fun s c => AddSample s c.1 c.2) st) h).getD emptyHistogram =
        ((lookupHost st h).getD emptyHistogram).addAll (samplesFor h calls) := by
  induction calls with
  | nil => intro st; simp [samplesFor, Histogram.addAll]
  | cons c rest ih =>
    intro st
    show (lookupHost (rest.foldl _ (AddSample st c.1 c.2)) h).getD emptyHistogram = _
    rw [ih]
    by_cases hc : c.1 = h
    · subst hc
      rw [lookupHost_AddSample_self]
      simp only [Option.getD_some]
      have : samplesFor c.1 (c :: rest) = c.2 :: samplesFor c.1 rest := by
        simp [samplesFor]
      rw [this]
      rfl
    · rw [lookupHost_AddSample_ne st c.1 h c.2 (fun e => hc e.symm)]
      have : samplesFor h (c :: rest) = samplesFor h rest := by
        simp [samplesFor, hc]
      rw [this]

/-! ## Presence lemmas and idempotence of EnsurePresence -/

theorem ensureOne_of_hasHost (st : List (String × Histogram)) (h : String)
    (hh : hasHost st h = true) : ensureOne st h = st := by
  induction st with
  | nil => simp [hasHost, lookupHost] at hh
  | cons p rest ih =>
    by_cases hp : p.1 = h
    · simp [ensureOne, hp]
    · have : hasHost rest h = true := by
        simpa [hasHost, lookupHost, hp] using hh
      simp [ensureOne, hp, ih this]

theorem hasHost_EnsurePresence (st : List (String × Histogram)) (hosts : List String)
    (h : String) : hasHost (EnsurePresence st hosts) h = (hasHost st h || decide (h ∈ hosts)) := by
  rw [hasHost, lookupHost_EnsurePresence]
  by_cases hm : h ∈ hosts <;> simp [hm, hasHost]

theorem EnsurePresence_of_all_present (hosts : List String) :
    ∀ st : List (String × Histogram), (∀ h ∈ hosts, hasHost st h = true) →
      EnsurePresence st hosts = st := by
  induction hosts with
  | nil => intro st _; rfl
  | cons x rest ih =>
    intro st hall
    show EnsurePresence (ensureOne st x) rest = st
    rw [ensureOne_of_hasHost st x (hall x (by simp))]
    exact ih st (fun h hm => hall h (by simp [hm]))

/-! ## Probing-phase lemmas -/

theorem probeHost_lookup_ne (d : String → Option ℚ) (st : CollectorState) (x h : String)
    (hne : x ≠ h) : lookupHost (probeHost d st x).store h = lookupHost st.store h := by
  unfold probeHost
  cases d x with
  | none => rfl
  | some v => exact lookupHost_AddSample_ne st.store x h v (fun e => hne e.symm)

theorem probeHost_lookup_self_none (d : String → Option ℚ) (st : CollectorState) (h : String)
    (hd : d h = none) : lookupHost (probeHost d st h).store h = lookupHost st.store h := by
  unfold probeHost
  rw [hd]

theorem probeHost_lookup_self_some (d : String → Option ℚ) (st : CollectorState) (h : String)
    (v : ℚ) (hd : d h = some v) :
    lookupHost (probeHost d st h).store h =
      some (((lookupHost st.store h).getD emptyHistogram).add v) := by
  unfold probeHost
  rw [hd]
  exact lookupHost_AddSample_self st.store h v

theorem probeHost_dialErr_ne (d : String → Option ℚ) (st : CollectorState) (x h : String)
    (hne : h ≠ x) : (probeHost d st x).dialErrorCount h = st.dialErrorCount h := by
  unfold probeHost
  cases d x with
  | none => simp [hne]
  | some v => rfl

theorem probeHost_dialErr_self_none (d : String → Option ℚ) (st : CollectorState) (h : String)
    (hd : d h = none) : (probeHost d st h).dialErrorCount h = st.dialErrorCount h + 1 := by
  unfold probeHost
  rw [hd]
  simp

theorem probeHost_dialErr_self_some (d : String → Option ℚ) (st : CollectorState) (h : String)
    (v : ℚ) (hd : d h = some v) :
    (probeHost d st h).dialErrorCount h = st.dialErrorCount h := by
  unfold probeHost
  rw [hd]

theorem probeHost_errorCount (d : String → Option ℚ) (st : CollectorState) (x : String) :
    (probeHost d st x).errorCount = st.errorCount := by
  unfold probeHost
  cases d x <;> rfl

theorem probeAll_lookup_not_mem (d : String → Option ℚ) (hosts : List String) (h : String)
    (hnm : h ∉ hosts) :
    ∀ st : CollectorState, lookupHost (probeAll d st hosts).store h = lookupHost st.store h := by
  induction hosts with
  | nil => intro st; rfl
  | cons x rest ih =>
    intro st
    have hx : x ≠ h := fun e => hnm (by simp [e])
    have hr : h ∉ rest := fun m => hnm (by simp [m])
    show lookupHost (probeAll d (probeHost d st x) rest).store h = _
    rw [ih hr, probeHost_lookup_ne d st x h hx]

theorem probeAll_lookup_none (d : String → Option ℚ) (hosts : List String) (h : String)
    (hd : d h = none) :
    ∀ st : CollectorState, lookupHost (probeAll d st hosts).store h = lookupHost st.store h := by
  induction hosts with
  | nil => intro st; rfl
  | cons x rest ih =>
    intro st
    show lookupHost (probeAll d (probeHost d st x) rest).store h = _
    rw [ih]
    by_cases hx : x = h
    · subst hx; exact probeHost_lookup_self_none d st x hd
    · exact probeHost_lookup_ne d st x h hx

theorem probeAll_lookup_some_count_one (d : String → Option ℚ) (hosts : List String)
    (h : String) (v : ℚ) (hd : d h = some v) (hc : hosts.count h = 1) :
    ∀ st : CollectorState,
      lookupHost (probeAll d st hosts).store h =
        some (((lookupHost st.store h).getD emptyHistogram).add v) := by
  induction hosts with
  | nil => simp at hc
  | cons x rest ih =>
    intro st
    show lookupHost (probeAll d (probeHost d st x) rest).store h = _
    by_cases hx : x = h
    · subst hx
      have hzero : rest.count x = 0 := by
        have := hc
        rw [List.count_cons_self] at this
        omega
      have hnm : x ∉ rest := by
        intro m
        have := List.count_pos_iff.mpr m
        omega
      rw [probeAll_lookup_not_mem d rest x hnm]
      exact probeHost_lookup_self_some d st x v hd
    · have hc' : rest.count h = 1 := by
        have := hc
        rwa [List.count_cons_of_ne (fun e => hx e.symm)] at this
      rw [ih hc', probeHost_lookup_ne d st x h hx]

theorem probeAll_dialErr_none (d : String → Option ℚ) (hosts : List String) (h : String)
    (hd : d h = none) :
    ∀ st : CollectorState,
      (probeAll d st hosts).dialErrorCount h = st.dialErrorCount h + hosts.count h := by
  induction hosts with
  | nil => intro st; simp [probeAll]
  | cons x rest ih =>
    intro st
    show (probeAll d (probeHost d st x) rest).dialErrorCount h = _
    rw [ih]
    by_cases hx : x = h
    · subst hx
      rw [probeHost_dialErr_self_none d st x hd, List.count_cons_self]
      omega
    · rw [probeHost_dialErr_ne d st x h (fun e => hx e.symm),
        List.count_cons_of_ne (fun e => hx e.symm)]

theorem probeAll_errorCount (d : String → Option ℚ) (hosts : List String) :
    ∀ st : CollectorState, (probeAll d st hosts).errorCount = st.errorCount := by
  induction hosts with
  | nil => intro st; rfl
  | cons x rest ih =>
    intro st
    show (probeAll d (probeHost d st x) rest).errorCount = _
    rw [ih, probeHost_errorCount]

/-- Non-interference of the probing phase: the histogram entry and
dial-error counter of a host `h'` depend only on the dial outcome at
`h'` itself (and on the starting values at `h'`). -/
theorem probeAll_local (d₁ d₂ : String → Option ℚ) (h' : String) (hd : d₁ h' = d₂ h')
    (hosts : List String) :
    ∀ st₁ st₂ : CollectorState,
      lookupHost st₁.store h' = lookupHost st₂.store h' →
      st₁.dialErrorCount h' = st₂.dialErrorCount h' →
      lookupHost (probeAll d₁ st₁ hosts).store h' = lookupHost (probeAll d₂ st₂ hosts).store h'
      ∧ (probeAll d₁ st₁ hosts).dialErrorCount h' = (probeAll d₂ st₂ hosts).dialErrorCount h' := by
  induction hosts with
  | nil => intro st₁ st₂ hs he; exact ⟨hs, he⟩
  | cons x rest ih =>
    intro st₁ st₂ hs he
    show lookupHost (probeAll d₁ (probeHost d₁ st₁ x) rest).store h' = _ ∧
      (probeAll d₁ (probeHost d₁ st₁ x) rest).dialErrorCount h' = _
    refine ih (probeHost d₁ st₁ x) (probeHost d₂ st₂ x) ?_ ?_
    · by_cases hx : x = h'
      · subst hx
        cases hdx : d₂ x with
        | none =>
          rw [probeHost_lookup_self_none d₁ st₁ x (hd.trans hdx),
            probeHost_lookup_self_none d₂ st₂ x hdx, hs]
        | some v =>
          rw [probeHost_lookup_self_some d₁ st₁ x v (hd.trans hdx),
            probeHost_lookup_self_some d₂ st₂ x v hdx, hs]
      · rw [probeHost_lookup_ne d₁ st₁ x h' hx, probeHost_lookup_ne d₂ st₂ x h' hx, hs]
    · by_cases hx : h' = x
      · subst hx
        cases hdx : d₂ h' with
        | none =>
          rw [probeHost_dialErr_self_none d₁ st₁ h' (hd.trans hdx),
            probeHost_dialErr_self_none d₂ st₂ h' hdx, he]
        | some v =>
          rw [probeHost_dialErr_self_some d₁ st₁ h' v (hd.trans hdx),
            probeHost_dialErr_self_some d₂ st₂ h' v hdx, he]
      · rw [probeHost_dialErr_ne d₁ st₁ x h' hx, probeHost_dialErr_ne d₂ st₂ x h' hx, he]

/-! ## Concrete example inputs (used to exercise the theorems) -/

def exampleCollector : Collector :=
  { namespaceName := "monitoring", port := "8000", service := "net-exporter" }

def exampleState : CollectorState :=
  { store := [], errorCount := 0, dialErrorCount := fun _ => 0, scrapeID := 0 }

def exampleStatePrev : CollectorState :=
  { store := [("old-host:8000", emptyHistogram)], errorCount := 0,
    dialErrorCount := fun _ => 0, scrapeID := 0 }

def exampleDial : String → Option ℚ :=
  fun x => if x = "10.0.0.3:8000" then none else some 1

def exampleDialOk : String → Option ℚ := fun _ => some 1

def exampleEndpoints : Endpoints := { subsets := [{ addresses := ["10.0.0.2", "10.0.0.3"] }] }

def exampleInput : CycleInput :=
  { serviceResult := some { clusterIP := "10.0.0.1" }
    endpointsResult := some exampleEndpoints
    dial := exampleDial }

def exampleInputOk : CycleInput :=
  { serviceResult := some { clusterIP := "10.0.0.1" }
    endpointsResult := some exampleEndpoints
    dial := exampleDialOk }

def exampleInputErr : CycleInput :=
  { serviceResult := none, endpointsResult := none, dial := exampleDialOk }

/-! ## Target-list characterisation -/

theorem foldl_append_singleton {α β : Type} (f : α → β) :
    ∀ (l : List α) (acc : List β), l.foldl (fun hs a => hs ++ [f a]) acc = acc ++ l.map f := by
  intro l
  induction l with
  | nil => intro acc; simp
  | cons x rest ih =>
    intro acc
    show rest.foldl _ (acc ++ [f x]) = _
    rw [ih, List.append_assoc]
    rfl

theorem collectHosts_eq (clusterIP port : String) (subsets : List EndpointSubset) :
    collectHosts clusterIP port subsets =
      makeHost clusterIP port ::
        (subsets.map EndpointSubset.addresses).flatten.map (fun a => makeHost a port) := by
  have outer : ∀ (ss : List EndpointSubset) (acc : List String),
      ss.foldl (fun hosts s => s.addresses.foldl (fun hs a => hs ++ [makeHost a port]) hosts) acc
        = acc ++ (ss.map EndpointSubset.addresses).flatten.map (fun a => makeHost a port) := by
    intro ss
    induction ss with
    | nil => intro acc; simp
    | cons s rest ih =>
      intro acc
      show rest.foldl _ (s.addresses.foldl _ acc) = _
      rw [foldl_append_singleton, ih, List.append_assoc]
      simp
  rw [collectHosts, outer]
  rfl

/-! ## Collect path lemmas -/

theorem Collect_service_err (c : Collector) (inp : CycleInput) (st : CollectorState)
    (hsvc : inp.serviceResult = none) :
    Collect c inp st =
      ({ st with scrapeID := st.scrapeID + 1, errorCount := st.errorCount + 1 }, []) := by
  simp only [Collect, hsvc]

theorem Collect_endpoints_err (c : Collector) (inp : CycleInput) (st : CollectorState)
    (svc : Service) (hsvc : inp.serviceResult = some svc)
    (heps : inp.endpointsResult = none) :
    Collect c inp st =
      ({ st with scrapeID := st.scrapeID + 1, errorCount := st.errorCount + 1 }, []) := by
  simp only [Collect, hsvc, heps]

theorem Collect_success (c : Collector) (inp : CycleInput) (st : CollectorState)
    (svc : Service) (eps : Endpoints) (hsvc : inp.serviceResult = some svc)
    (heps : inp.endpointsResult = some eps) :
    Collect c inp st =
      (let hosts := collectHosts svc.clusterIP c.port eps.subsets
       let st1 := probeAll inp.dial { st with scrapeID := st.scrapeID + 1 } hosts
       ({ st1 with store := EnsurePresence st1.store hosts },
        EnsurePresence st1.store hosts)) := by
  simp only [Collect, hsvc, heps]

/-! ## Key-set and presence lemmas for the store -/

theorem hasHost_iff_mem_map_fst (st : List (String × Histogram)) (h : String) :
    hasHost st h = true ↔ h ∈ st.map Prod.fst := by
  induction st with
  | nil => simp [hasHost, lookupHost]
  | cons p rest ih =>
    by_cases hp : p.1 = h
    · simp [hasHost, lookupHost, hp]
    · have hp' : ¬ h = p.1 := fun e => hp e.symm
      simp only [hasHost] at ih
      simp only [hasHost, lookupHost, if_neg hp, List.map_cons, List.mem_cons]
      rw [ih]
      simp [hp']

theorem AddSample_map_fst (st : List (String × Histogram)) (h : String) (v : ℚ) :
    (AddSample st h v).map Prod.fst =
      if hasHost st h then st.map Prod.fst else st.map Prod.fst ++ [h] := by
  induction st with
  | nil => simp [AddSample, hasHost, lookupHost]
  | cons p rest ih =>
    by_cases hp : p.1 = h
    · simp [AddSample, hasHost, lookupHost, hp]
    · simp only [hasHost] at ih
      simp only [AddSample, if_neg hp, List.map_cons, hasHost, lookupHost]
      rw [ih]
      by_cases hh : (lookupHost rest h).isSome = true <;> simp [hh]

theorem ensureOne_map_fst (st : List (String × Histogram)) (h : String) :
    (ensureOne st h).map Prod.fst =
      if hasHost st h then st.map Prod.fst else st.map Prod.fst ++ [h] := by
  induction st with
  | nil => simp [ensureOne, hasHost, lookupHost]
  | cons p rest ih =>
    by_cases hp : p.1 = h
    · simp [ensureOne, hasHost, lookupHost, hp]
    · simp only [hasHost] at ih
      simp only [ensureOne, if_neg hp, List.map_cons, hasHost, lookupHost]
      rw [ih]
      by_cases hh : (lookupHost rest h).isSome = true <;> simp [hh]

theorem AddSample_nodup (st : List (String × Histogram)) (h : String) (v : ℚ)
    (hnd : (st.map Prod.fst).Nodup) : ((AddSample st h v).map Prod.fst).Nodup := by
  rw [AddSample_map_fst]
  by_cases hh : hasHost st h = true
  · simp [hh, hnd]
  · have hm : h ∉ st.map Prod.fst := fun m => hh ((hasHost_iff_mem_map_fst st h).mpr m)
    simp [hh, List.nodup_append, hnd, hm]

theorem ensureOne_nodup (st : List (String × Histogram)) (h : String)
    (hnd : (st.map Prod.fst).Nodup) : ((ensureOne st h).map Prod.fst).Nodup := by
  rw [ensureOne_map_fst]
  by_cases hh : hasHost st h = true
  · simp [hh, hnd]
  · have hm : h ∉ st.map Prod.fst := fun m => hh ((hasHost_iff_mem_map_fst st h).mpr m)
    simp [hh, List.nodup_append, hnd, hm]

theorem probeHost_nodup (d : String → Option ℚ) (st : CollectorState) (x : String)
    (hnd : (st.store.map Prod.fst).Nodup) :
    ((probeHost d st x).store.map Prod.fst).Nodup := by
  unfold probeHost
  cases d x with
  | none => exact hnd
  | some v => exact AddSample_nodup st.store x v hnd

theorem probeAll_nodup (d : String → Option ℚ) (hosts : List String) :
    ∀ st : CollectorState, (st.store.map Prod.fst).Nodup →
      ((probeAll d st hosts).store.map Prod.fst).Nodup := by
  induction hosts with
  | nil => intro st hnd; exact hnd
  | cons x rest ih =>
    intro st hnd
    exact ih (probeHost d st x) (probeHost_nodup d st x hnd)

theorem EnsurePresence_nodup (hosts : List String) :
    ∀ st : List (String × Histogram), (st.map Prod.fst).Nodup →
      ((EnsurePresence st hosts).map Prod.fst).Nodup := by
  induction hosts with
  | nil => intro st hnd; exact hnd
  | cons x rest ih =>
    intro st hnd
    exact ih (ensureOne st x) (ensureOne_nodup st x hnd)

theorem hasHost_AddSample_mono (st : List (String × Histogram)) (h h' : String) (v : ℚ)
    (hh : hasHost st h' = true) : hasHost (AddSample st h v) h' = true := by
  rw [hasHost_iff_mem_map_fst] at hh ⊢
  rw [AddSample_map_fst]
  by_cases hx : hasHost st h = true <;> simp [hx, hh]

theorem hasHost_probeAll_mono (d : String → Option ℚ) (hosts : List String) (h' : String) :
    ∀ st : CollectorState, hasHost st.store h' = true →
      hasHost (probeAll d st hosts).store h' = true := by
  induction hosts with
  | nil => intro st hh; exact hh
  | cons x rest ih =>
    intro st hh
    refine ih (probeHost d st x) ?_
    unfold probeHost
    cases d x with
    | none => exact hh
    | some v => exact hasHost_AddSample_mono st.store x h' v hh

theorem hasHost_EnsurePresence_mono (st : List (String × Histogram)) (hosts : List String)
    (h : String) (hh : hasHost st h = true) : hasHost (EnsurePresence st hosts) h = true := by
  rw [hasHost_EnsurePresence]
  simp [hh]

theorem hasHost_EnsurePresence_of_mem (st : List (String × Histogram)) (hosts : List String)
    (h : String) (hm : h ∈ hosts) : hasHost (EnsurePresence st hosts) h = true := by
  rw [hasHost_EnsurePresence]
  simp [hm]

/-! ## Collect-level helper lemmas -/

theorem Collect_lookup_some (c : Collector) (inp : CycleInput) (st : CollectorState)
    (svc : Service) (eps : Endpoints) (h : String) (v : ℚ)
    (hsvc : inp.serviceResult = some svc) (heps : inp.endpointsResult = some eps)
    (hc : (collectHosts svc.clusterIP c.port eps.subsets).count h = 1)
    (hd : inp.dial h = some v) :
    lookupHost (Collect c inp st).1.store h =
      some (((lookupHost st.store h).getD emptyHistogram).add v) := by
  have hmem : h ∈ collectHosts svc.clusterIP c.port eps.subsets :=
    List.count_pos_iff.mp (by omega)
  simp only [Collect, hsvc, heps]
  rw [lookupHost_EnsurePresence, if_pos hmem,
    probeAll_lookup_some_count_one inp.dial (collectHosts svc.clusterIP c.port eps.subsets)
      h v hd hc]
  rfl

/-- C1: for every host `h` and every finite sequence of `AddSample(h, v)`
calls applied to the initially empty store, the resulting histogram for
`h` has count equal to the number of calls for `h`, sum equal to the sum
of their values, and, for every bucket upper bound `b`, a cumulative
bucket count equal to the number of samples `v ≤ b` (inclusive upper
bound). -/
theorem c1_addSample_accumulates (calls : List (String × ℚ)) (h : String) :
    ((lookupHost (applyCalls calls) h).getD emptyHistogram).count = (samplesFor h calls).length ∧
    ((lookupHost (applyCalls calls) h).getD emptyHistogram).sum = (samplesFor h calls).sum ∧
    ((lookupHost (applyCalls calls) h).getD emptyHistogram).buckets =
      bucketLimits.map
        (fun b => (b, ((samplesFor h calls).filter (fun v => decide (v ≤ b))).length)) := by
  have key : (lookupHost (applyCalls calls) h).getD emptyHistogram =
      histOfSamples (samplesFor h calls) := by
    show (lookupHost (calls.foldl (fun s c => AddSample s c.1 c.2) []) h).getD emptyHistogram = _
    rw [lookupHost_foldl_AddSample]
    show (emptyHistogram).addAll (samplesFor h calls) = _
    rw [emptyHistogram_eq, histOfSamples_addAll]
    rfl
  rw [key]
  exact ⟨rfl, rfl, rfl⟩

/-- C7: `EnsurePresence` is idempotent: applying it twice with the same
host list produces the same store as applying it once. -/
theorem c7_ensurePresence_idempotent (st : List (String × Histogram)) (hosts : List String) :
    EnsurePresence (EnsurePresence st hosts) hosts = EnsurePresence st hosts := by
  refine EnsurePresence_of_all_present hosts (EnsurePresence st hosts) (fun h hm => ?_)
  rw [hasHost_EnsurePresence]
  simp [hm]

/-- C2: a dial failure for a target host `h` (resolved exactly once this
cycle) leaves `h`'s histogram value unchanged if it already existed, or
creates an empty entry for it if unseen; increments the dial-error
counter labeled `h` by exactly 1; records no latency sample for the
attempt; and does not affect any other target: the post-cycle histogram
and dial-error counter of every other host `h'` are the same as in a run
whose dial outcomes differ only at `h`. -/
theorem c2_dial_failure_isolated (c : Collector) (inp : CycleInput) (st : CollectorState)
    (svc : Service) (eps : Endpoints) (h h' : String) (d' : String → Option ℚ)
    (hsvc : inp.serviceResult = some svc) (heps : inp.endpointsResult = some eps)
    (hcount : (collectHosts svc.clusterIP c.port eps.subsets).count h = 1)
    (hfail : inp.dial h = none)
    (hagree : ∀ x, x ≠ h → d' x = inp.dial x) (hne : h' ≠ h) :
    lookupHost (Collect c inp st).1.store h =
      some ((lookupHost st.store h).getD emptyHistogram)
    ∧ (Collect c inp st).1.dialErrorCount h = st.dialErrorCount h + 1
    ∧ lookupHost (Collect c { inp with dial := d' } st).1.store h' =
        lookupHost (Collect c inp st).1.store h'
    ∧ (Collect c { inp with dial := d' } st).1.dialErrorCount h' =
        (Collect c inp st).1.dialErrorCount h' := by
  have hmem : h ∈ collectHosts svc.clusterIP c.port eps.subsets :=
    List.count_pos_iff.mp (by omega)
  obtain ⟨hs, he⟩ := probeAll_local d' inp.dial h' (hagree h' hne)
    (collectHosts svc.clusterIP c.port eps.subsets)
    { st with scrapeID := st.scrapeID + 1 } { st with scrapeID := st.scrapeID + 1 } rfl rfl
  refine ⟨?_, ?_, ?_, ?_⟩
  · simp only [Collect, hsvc, heps]
    rw [lookupHost_EnsurePresence, if_pos hmem,
      probeAll_lookup_none inp.dial (collectHosts svc.clusterIP c.port eps.subsets) h hfail]
  · simp only [Collect, hsvc, heps]
    rw [probeAll_dialErr_none inp.dial (collectHosts svc.clusterIP c.port eps.subsets) h hfail,
      hcount]
  · simp only [Collect, hsvc, heps]
    rw [lookupHost_EnsurePresence, lookupHost_EnsurePresence, hs]
  · simp only [Collect, hsvc, heps]
    exact he

theorem c2_dial_failure_isolated_witness :
    lookupHost (Collect exampleCollector exampleInput exampleState).1.store "10.0.0.3:8000" =
      some ((lookupHost exampleState.store "10.0.0.3:8000").getD emptyHistogram)
    ∧ (Collect exampleCollector exampleInput exampleState).1.dialErrorCount "10.0.0.3:8000" =
        exampleState.dialErrorCount "10.0.0.3:8000" + 1
    ∧ lookupHost (Collect exampleCollector { exampleInput with dial := exampleDial }
          exampleState).1.store "10.0.0.1:8000" =
        lookupHost (Collect exampleCollector exampleInput exampleState).1.store "10.0.0.1:8000"
    ∧ (Collect exampleCollector { exampleInput with dial := exampleDial }
          exampleState).1.dialErrorCount "10.0.0.1:8000" =
        (Collect exampleCollector exampleInput exampleState).1.dialErrorCount "10.0.0.1:8000" :=
  c2_dial_failure_isolated exampleCollector exampleInput exampleState
    { clusterIP := "10.0.0.1" } exampleEndpoints "10.0.0.3:8000" "10.0.0.1:8000" exampleDial
    rfl rfl (by decide) (by decide) (fun x _ => rfl) (by decide)

/-- C3: if either registry lookup fails, the cycle aborts: nothing is
emitted, the histogram store is unchanged, the global error counter is
incremented by exactly 1, and no dial-error counter changes. -/
theorem c3_resolver_failure_aborts (c : Collector) (inp : CycleInput) (st : CollectorState)
    (h : String) (herr : inp.serviceResult = none ∨ inp.endpointsResult = none) :
    (Collect c inp st).2 = []
    ∧ (Collect c inp st).1.store = st.store
    ∧ (Collect c inp st).1.errorCount = st.errorCount + 1
    ∧ (Collect c inp st).1.dialErrorCount h = st.dialErrorCount h := by
  rcases herr with hsvc | heps
  · simp only [Collect, hsvc]
    exact ⟨trivial, trivial, trivial, trivial⟩
  · cases hsvc : inp.serviceResult with
    | none =>
      simp only [Collect, hsvc]
      exact ⟨trivial, trivial, trivial, trivial⟩
    | some svc =>
      simp only [Collect, hsvc, heps]
      exact ⟨trivial, trivial, trivial, trivial⟩

theorem c3_resolver_failure_aborts_witness :
    (Collect exampleCollector exampleInputErr exampleState).2 = []
    ∧ (Collect exampleCollector exampleInputErr exampleState).1.store = exampleState.store
    ∧ (Collect exampleCollector exampleInputErr exampleState).1.errorCount =
        exampleState.errorCount + 1
    ∧ (Collect exampleCollector exampleInputErr exampleState).1.dialErrorCount "10.0.0.1:8000" =
        exampleState.dialErrorCount "10.0.0.1:8000" :=
  c3_resolver_failure_aborts exampleCollector exampleInputErr exampleState "10.0.0.1:8000"
    (Or.inl rfl)

/-- C4: when probing completes, the emitted metric list is exactly the
full store snapshot (one histogram per store entry, with no duplicate
host labels when the store had none), every host resolved this cycle has
an entry in it, and every host carried over from earlier cycles keeps
its entry. -/
theorem c4_export_one_metric_per_host (c : Collector) (inp : CycleInput) (st : CollectorState)
    (svc : Service) (eps : Endpoints) (h₁ h₂ : String)
    (hsvc : inp.serviceResult = some svc) (heps : inp.endpointsResult = some eps)
    (hnd : (st.store.map Prod.fst).Nodup)
    (hmem : h₁ ∈ collectHosts svc.clusterIP c.port eps.subsets)
    (hprev : hasHost st.store h₂ = true) :
    (Collect c inp st).2 = (Collect c inp st).1.store
    ∧ ((Collect c inp st).2.map Prod.fst).Nodup
    ∧ hasHost (Collect c inp st).1.store h₁ = true
    ∧ hasHost (Collect c inp st).1.store h₂ = true := by
  refine ⟨?_, ?_, ?_, ?_⟩
  · simp only [Collect, hsvc, heps]
  · simp only [Collect, hsvc, heps]
    exact EnsurePresence_nodup (collectHosts svc.clusterIP c.port eps.subsets)
      (probeAll inp.dial { st with scrapeID := st.scrapeID + 1 }
        (collectHosts svc.clusterIP c.port eps.subsets)).store
      (probeAll_nodup inp.dial (collectHosts svc.clusterIP c.port eps.subsets)
        { st with scrapeID := st.scrapeID + 1 } hnd)
  · simp only [Collect, hsvc, heps]
    exact hasHost_EnsurePresence_of_mem _ _ h₁ hmem
  · simp only [Collect, hsvc, heps]
    exact hasHost_EnsurePresence_mono _ _ h₂
      (hasHost_probeAll_mono inp.dial (collectHosts svc.clusterIP c.port eps.subsets) h₂
        { st with scrapeID := st.scrapeID + 1 } hprev)

theorem c4_export_one_metric_per_host_witness :
    (Collect exampleCollector exampleInput exampleStatePrev).2 =
      (Collect exampleCollector exampleInput exampleStatePrev).1.store
    ∧ ((Collect exampleCollector exampleInput exampleStatePrev).2.map Prod.fst).Nodup
    ∧ hasHost (Collect exampleCollector exampleInput exampleStatePrev).1.store
        "10.0.0.3:8000" = true
    ∧ hasHost (Collect exampleCollector exampleInput exampleStatePrev).1.store
        "old-host:8000" = true :=
  c4_export_one_metric_per_host exampleCollector exampleInput exampleStatePrev
    { clusterIP := "10.0.0.1" } exampleEndpoints "10.0.0.3:8000" "old-host:8000"
    rfl rfl (by decide) (by decide) (by decide)

/-- C5: when both registry lookups succeed, the resolved target list is
exactly, in order: the service's cluster address combined with the
configured port, then every backing endpoint address from every subset,
in order, each combined with the same port. -/
theorem c5_resolved_target_list (clusterIP port : String) (subsets : List EndpointSubset) :
    collectHosts clusterIP port subsets =
      makeHost clusterIP port ::
        (subsets.map EndpointSubset.addresses).flatten.map (fun a => makeHost a port) :=
  collectHosts_eq clusterIP port subsets

/-- C6: histograms persist across cycles: two consecutive successful
cycles each recording one sample for host `h` leave `h` with both
samples accumulated on top of whatever it had before — in particular its
count grows by exactly 2 (so it is 2 when `h` started unseen). -/
theorem c6_histograms_accumulate_across_cycles (c : Collector) (inp₁ inp₂ : CycleInput)
    (st : CollectorState) (svc₁ svc₂ : Service) (eps₁ eps₂ : Endpoints) (h : String)
    (v₁ v₂ : ℚ)
    (hsvc₁ : inp₁.serviceResult = some svc₁) (heps₁ : inp₁.endpointsResult = some eps₁)
    (hsvc₂ : inp₂.serviceResult = some svc₂) (heps₂ : inp₂.endpointsResult = some eps₂)
    (hc₁ : (collectHosts svc₁.clusterIP c.port eps₁.subsets).count h = 1)
    (hc₂ : (collectHosts svc₂.clusterIP c.port eps₂.subsets).count h = 1)
    (hd₁ : inp₁.dial h = some v₁) (hd₂ : inp₂.dial h = some v₂) :
    lookupHost (Collect c inp₂ (Collect c inp₁ st).1).1.store h =
      some ((((lookupHost st.store h).getD emptyHistogram).add v₁).add v₂)
    ∧ ((lookupHost (Collect c inp₂ (Collect c inp₁ st).1).1.store h).getD emptyHistogram).count =
        ((lookupHost st.store h).getD emptyHistogram).count + 2 := by
  have e1 := Collect_lookup_some c inp₁ st svc₁ eps₁ h v₁ hsvc₁ heps₁ hc₁ hd₁
  have e2 := Collect_lookup_some c inp₂ (Collect c inp₁ st).1 svc₂ eps₂ h v₂ hsvc₂ heps₂ hc₂ hd₂
  rw [e1] at e2
  simp only [Option.getD_some] at e2
  refine ⟨e2, ?_⟩
  rw [e2]
  simp [Histogram.add]

theorem c6_histograms_accumulate_across_cycles_witness :
    lookupHost (Collect exampleCollector exampleInputOk
        (Collect exampleCollector exampleInputOk exampleState).1).1.store "10.0.0.1:8000" =
      some ((((lookupHost exampleState.store "10.0.0.1:8000").getD
        emptyHistogram).add 1).add 1)
    ∧ ((lookupHost (Collect exampleCollector exampleInputOk
          (Collect exampleCollector exampleInputOk exampleState).1).1.store
          "10.0.0.1:8000").getD emptyHistogram).count =
        ((lookupHost exampleState.store "10.0.0.1:8000").getD emptyHistogram).count + 2 :=
  c6_histograms_accumulate_across_cycles exampleCollector exampleInputOk exampleInputOk
    exampleState { clusterIP := "10.0.0.1" } { clusterIP := "10.0.0.1" }
    exampleEndpoints exampleEndpoints "10.0.0.1:8000" 1 1
    rfl rfl rfl rfl (by decide) (by decide) rfl rfl

/-- C8: `New` fails exactly when a required input is missing — the
dialer, Kubernetes client, or logger is absent, or the namespace, port,
or service name is empty — and returns a collector otherwise (the
modelled histogram-vector guard cannot fire since the bucket list is
non-empty). -/
theorem c8_new_validates_config (config : Config) :
    ((∃ e, New config = Except.error e) ↔
      (config.dialer = none ∨ config.kubernetesClient = none ∨ config.logger = none ∨
        config.namespaceName = "" ∨ config.port = "" ∨ config.service = ""))
    ∧ ((∃ col, New config = Except.ok col) ↔
      ¬ (config.dialer = none ∨ config.kubernetesClient = none ∨ config.logger = none ∨
        config.namespaceName = "" ∨ config.port = "" ∨ config.service = "")) := by
  have hbl : ¬ (bucketLimits = []) := by
    unfold bucketLimits exponentialBuckets
    simp [numBuckets, List.range_eq_nil]
  unfold New
  split_ifs with h1 h2 h3 h4 h5 h6 h7 <;>
    simp_all [Option.isNone_iff_eq_none]

/-- C10: when both registry lookups succeed, the resolved target list is
never empty: the cluster-address target is always included, even with no
endpoint subsets or addresses, so at least one dial is attempted. -/
theorem c10_resolved_list_nonempty (clusterIP port : String) (subsets : List EndpointSubset) :
    collectHosts clusterIP port subsets ≠ []
    ∧ makeHost clusterIP port ∈ collectHosts clusterIP port subsets := by
  rw [collectHosts_eq]
  exact ⟨by simp, by simp⟩

end NetExporter
